import Mathlib

/-!
# PyMDB-Client: a shallow embedding of `pymdbclient` in Lean 4

This file embeds the two source modules of the PyMDB-Client repository —
`pymdbclient/papi.py` (the `Papi` HTTP client with its `paginate` loop and the
CLI entry point `main`) and `pymdbclient/config.py` (the `ConfigReader`
environment-indirection resolver) — and proves the behavioural properties
claimed of them.

Modelling choices:
* JSON values are the inductive `JValue`; Python dicts appearing as JSON
  objects or as request parameters are association lists `Dict`.
* The network is an oracle: a pagination run is given the list of responses
  the server would produce, consumed one per request; running out of scripted
  responses models a transport failure.  Each `PyResponse` carries `jsonBody`,
  the value that `response.json()` yields for it.
* Python exceptions are the `PyError` inductive, and fallible code returns
  `Except PyError _`.
* To state frame properties about mutation, dicts reachable from the caller
  live in a heap (`Heap`, a list of dicts indexed by position); `paginate`
  receives its `params` argument as `PyParams`: `None`, a reference into the
  heap, or a non-dict value.  The source line `params = {**params, 'page': ...}`
  allocates a fresh dict and rebinds the local name, which the embedding
  mirrors by appending to the heap.
-/

set_option autoImplicit false

namespace PyMDB

/-- JSON values, the result of parsing a response body. Numbers are modelled
as integers (the payloads the client manipulates are ints and item ids). -/
inductive JValue where
  | null
  | bool (b : Bool)
  | num (n : Int)
  | str (s : String)
  | arr (items : List JValue)
  | obj (fields : List (String × JValue))

/-- Python exceptions that the embedded code can raise. -/
inductive PyError where
  | typeError (msg : String)
  | keyError (key : String)
  | stopIteration
  | attributeError (msg : String)
  | connectionError
  | httpError (status : Nat)

/-- A JSON object's fields / a request-parameter mapping: an ordered
association list, mirroring a Python `dict`'s insertion order. -/
abbrev Dict := List (String × JValue)

/-- `d.get(k)` / `d[k]` lookup: first binding of `k`, if any. -/
def dictGet : Dict → String → Option JValue
  | [], _ => none
  | (k', v) :: rest, k => if k' = k then some v else dictGet rest k

/-- The dict built by `{**d, k: v}`: keys keep their order, an existing
binding of `k` is overwritten in place, a fresh `k` is appended at the end. -/
def dictSet : Dict → String → JValue → Dict
  | [], k, v => [(k, v)]
  | (k', v') :: rest, k, v =>
    if k' = k then (k, v) :: rest else (k', v') :: dictSet rest k v

/-- Python truthiness (`if not next_page_url`): `None`, `False`, `0`, the
empty string, the empty list and the empty dict are falsy. -/
def pyTruthy : JValue → Bool
  | .null => false
  | .bool b => b
  | .num n => n != 0
  | .str s => !s.data.isEmpty
  | .arr l => !l.isEmpty
  | .obj l => !l.isEmpty

/-- String escaping of `json.dumps` for the characters the client's payloads
use (quote, backslash and ASCII control whitespace). -/
def escapeChar (c : Char) : String :=
  if c = '"' then "\\\""
  else if c = '\\' then "\\\\"
  else if c = '\n' then "\\n"
  else if c = '\t' then "\\t"
  else if c = '\r' then "\\r"
  else String.mk [c]

/-- `json.dumps` escaping applied to a whole string. -/
def escapeString (s : String) : String :=
  String.join (s.data.map escapeChar)

mutual
/-- `json.dumps` with its default separators (`", "` between elements,
`": "` after a key). -/
def pyDumps : JValue → String
  | .null => "null"
  | .bool true => "true"
  | .bool false => "false"
  | .num n => toString n
  | .str s => "\"" ++ escapeString s ++ "\""
  | .arr items => "[" ++ pyDumpsList items ++ "]"
  | .obj fields => "\x7b" ++ pyDumpsFields fields ++ "\x7d"

/-- Serialize array elements, `", "`-separated. -/
def pyDumpsList : List JValue → String
  | [] => ""
  | [x] => pyDumps x
  | x :: y :: rest => pyDumps x ++ ", " ++ pyDumpsList (y :: rest)

/-- Serialize object fields, `", "`-separated. -/
def pyDumpsFields : List (String × JValue) → String
  | [] => ""
  | [(k, v)] => "\"" ++ escapeString k ++ "\": " ++ pyDumps v
  | (k, v) :: f :: rest =>
    "\"" ++ escapeString k ++ "\": " ++ pyDumps v ++ ", " ++ pyDumpsFields (f :: rest)
end

/-- A `requests.Response` as the client observes it: status code, headers,
body bytes (`_content`, as text), and `jsonBody`, the value `response.json()`
parses out of the body it was received with. -/
structure PyResponse where
  status_code : Nat
  headers : List (String × String)
  content : String
  jsonBody : JValue

/-- A record of one network call issued through `_request`. -/
structure Request where
  method : String
  endpoint : String
  params : Dict

/-- `response.raise_for_status()`: raises `HTTPError` exactly when the status
is a 4xx or 5xx client/server error. -/
def raise_for_status (r : PyResponse) : Except PyError Unit :=
  if 400 ≤ r.status_code ∧ r.status_code < 600 then .error (.httpError r.status_code)
  else .ok ()

/-- `str(requests.exceptions.HTTPError)`: the message embeds the numeric
status code ("404 Client Error ..." / "500 Server Error ..."). -/
def httpErrorMessage (s : Nat) : String :=
  toString s ++ (if s < 500 then " Client Error" else " Server Error")

/-- The lines printed by the `except` clause of `Papi._request`
(`print(f"HTTP Error: \x7be\x7d\n\x7bresponse.text\x7d")`): one line on a
4xx/5xx response, nothing otherwise. -/
def requestLog (resp : PyResponse) : List String :=
  match raise_for_status resp with
  | .error (.httpError s) => ["HTTP Error: " ++ httpErrorMessage s ++ "\n" ++ resp.content]
  | _ => []

/-- `Papi._request`, lines 45–50 of `papi.py`, applied to the response the
network produced: `raise_for_status` is tried, an `HTTPError` is caught and
printed, any other exception would propagate, and the raw response object is
returned unconditionally. -/
def pyRequest (resp : PyResponse) : Except PyError (PyResponse × List String) :=
  match raise_for_status resp with
  | .ok _ => .ok (resp, [])
  | .error (.httpError s) =>
    .ok (resp, ["HTTP Error: " ++ httpErrorMessage s ++ "\n" ++ resp.content])
  | .error e => .error e

/-- The heap of dicts reachable by reference: index = object identity. -/
abbrev Heap := List Dict

/-- Dereference a dict in the heap. -/
def heapGet (h : Heap) (r : Nat) : Dict := h.getD r []

/-- The `params` argument of `Papi.paginate`: `None`, a reference to a
caller-owned dict, or a value of any other type. -/
inductive PyParams where
  | pynone
  | ref (r : Nat)
  | other (descr : String)

/-- `next(iter(response_json.keys() - {'meta'}))`: the first key of the
response object that is not `"meta"`; raises `StopIteration` when the key
set contains no such key. -/
def topLevelKey (fields : Dict) : Except PyError String :=
  match (fields.map Prod.fst).filter (fun k => k != "meta") with
  | [] => .error .stopIteration
  | k :: _ => .ok k

/-- `combined_results.extend(v)`: appends an array's items; iterating a
string appends its characters one by one; other JSON values are not
iterable and raise `TypeError`. -/
def pyExtend (acc : List JValue) : JValue → Except PyError (List JValue)
  | .arr items => .ok (acc ++ items)
  | .str s => .ok (acc ++ s.data.map (fun c => JValue.str (String.mk [c])))
  | _ => .error (.typeError "object is not iterable")

/-- `response_json.get('meta', {})` followed by attribute access on the
result: yields the meta object's fields, the empty dict when `meta` is
absent, and `AttributeError` when the `meta` value is not an object. -/
def metaDict (fields : Dict) : Except PyError Dict :=
  match dictGet fields "meta" with
  | none => .ok []
  | some (.obj m) => .ok m
  | some _ => .error (.attributeError "object has no attribute get")

/-- `meta['page'] + 1`: succeeds on an int (and on a bool, which Python adds
as 0/1); any other operand raises `TypeError`. -/
def pyAddOne : JValue → Except PyError Int
  | .num n => .ok (n + 1)
  | .bool b => .ok ((if b then (1 : Int) else 0) + 1)
  | _ => .error (.typeError "unsupported operand type for +")

/-- Lines 123–126 of `papi.py`, the per-page body of the loop: parse the
response JSON as an object (anything else has no `keys` attribute), discover
the single non-`meta` data key, extend the accumulated items with the value
found under it (defaulting to the empty sequence), and read the `meta`
object. Returns the new accumulator together with the meta dict. -/
def pageStep (acc : List JValue) : JValue → Except PyError (List JValue × Dict)
  | .obj fields =>
    match topLevelKey fields with
    | .error e => .error e
    | .ok key =>
      match pyExtend acc ((dictGet fields key).getD (.arr [])) with
      | .error e => .error e
      | .ok acc' =>
        match metaDict fields with
        | .error e => .error e
        | .ok m => .ok (acc', m)
  | _ => .error (.attributeError "object has no attribute keys")

/-- The `while True` loop of `Papi.paginate` (lines 121–130 of `papi.py`),
run against the scripted list of responses, one consumed per request. Returns
the outcome (last response and accumulated items, or the exception), the heap
after the run, and the trace of requests issued. An exhausted script models a
transport failure, which propagates uncaught. -/
def paginateLoop (endpoint : String) (h : Heap) (r : Nat) (acc : List JValue) :
    List PyResponse → (Except PyError (PyResponse × List JValue)) × Heap × List Request
  | [] => (.error .connectionError, h, [])
  | page :: rest =>
    let ps := heapGet h r
    let req : Request := ⟨"GET", endpoint, ps⟩
    match pyRequest page with
    | .error e => (.error e, h, [req])
    | .ok (response, _printed) =>
      match pageStep acc response.jsonBody with
      | .error e => (.error e, h, [req])
      | .ok (acc', m) =>
        let npu := (dictGet m "next_page_url").getD .null
        if pyTruthy npu then
          match dictGet m "page" with
          | none => (.error (.keyError "page"), h, [req])
          | some pv =>
            match pyAddOne pv with
            | .error e => (.error e, h, [req])
            | .ok n =>
              match paginateLoop endpoint (h ++ [dictSet ps "page" (.num n)])
                  h.length acc' rest with
              | (res, h2, reqs) => (res, h2, req :: reqs)
        else (.ok (response, acc'), h, [req])

/-- Lines 132–133 of `papi.py`: overwrite `response._content` with the
JSON-serialized combined results and return the response. -/
def finishLoop :
    (Except PyError (PyResponse × List JValue)) × Heap × List Request →
    (Except PyError PyResponse) × Heap × List Request
  | (.error e, h, reqs) => (.error e, h, reqs)
  | (.ok (resp, acc), h, reqs) =>
    (.ok { resp with content := pyDumps (.arr acc) }, h, reqs)

/-- `Papi.paginate` (lines 104–133 of `papi.py`): `None` params become a
fresh empty dict, a non-dict raises `TypeError` before any request, and the
loop then runs over the scripted responses. -/
def paginate (endpoint : String) (pages : List PyResponse) (h : Heap) :
    PyParams → (Except PyError PyResponse) × Heap × List Request
  | .other _ => (.error (.typeError "params must be a dictionary"), h, [])
  | .pynone => finishLoop (paginateLoop endpoint (h ++ [[]]) h.length [] pages)
  | .ref r => finishLoop (paginateLoop endpoint h r [] pages)

/-! ## `config.py`: the environment-indirection resolver -/

/-- `value.startswith('${')` seen on the character list. -/
def startsWithIndir (v : String) : Bool :=
  match v.data with
  | c1 :: c2 :: _ => c1 == '$' && c2 == '\x7b'
  | _ => false

/-- `value.endswith('}')` seen on the character list. -/
def endsWithBrace (v : String) : Bool :=
  v.data.getLast? == some '\x7d'

/-- Python string truthiness: the empty string is falsy. -/
def strTruthy (v : String) : Bool :=
  !v.data.isEmpty

/-- `re.match(r'\$\x7b(.*)\x7d', value)` and its `.group(1)`: the pattern
must match at the start of the string — the two literal characters, then the
greedy `.*`, which never matches a newline, then a literal `\x7d`. The
capture is therefore everything up to the last `\x7d` of the first line of
the remainder; when that line holds no `\x7d` there is no match and the
result is `none` (Python's `None`). -/
def reGroupIndir (v : String) : Option String :=
  match v.data with
  | c0 :: c1 :: w =>
    if c0 == '$' && c1 == '\x7b' then
      match (w.takeWhile (fun ch => ch != '\n')).reverse.dropWhile
          (fun ch => ch != '\x7d') with
      | [] => none
      | _ :: a => some (String.mk a.reverse)
    else none
  | _ => none

/-- `ConfigReader.load_from_env` (lines 12–19 of `config.py`), with the
process environment passed in as a snapshot `env`. An absent or empty value
resolves to `None`; an indirection `${NAME}` resolves to the environment's
value when `NAME` is set, and falls back to the original literal otherwise
(`os.getenv(env_var, value)`); any other non-empty value is returned
unchanged. When the `startswith`/`endswith` guard passes but the regex finds
no match (a newline before the first line's last `\x7d`), `.group(1)` is
called on `None` and the call raises `AttributeError`. -/
def load_from_env (env : String → Option String) :
    Option String → Except PyError (Option String)
  | none => .ok none
  | some v =>
    if strTruthy v && (startsWithIndir v && endsWithBrace v) then
      match reGroupIndir v with
      | none => .error (.attributeError "NoneType object has no attribute group")
      | some env_var => .ok (some ((env env_var).getD v))
    else if strTruthy v then .ok (some v)
    else .ok none

/-! ## The CLI tail of `main` -/

/-- Lines 174–179 of `papi.py` together with the process exit: `main` tries
`result.raise_for_status()`; on success it prints the JSON-dumped body, on
`HTTPError` it prints `Error: \x7berr\x7d, Status Code: \x7bstatus\x7d`.
Either way `main` falls off the end, so the process exit status — the second
component — is 0 on both paths. -/
def mainOutcome (result : PyResponse) : List String × Nat :=
  match raise_for_status result with
  | .error (.httpError s) =>
    (["Error: " ++ httpErrorMessage s ++ ", Status Code: " ++ toString result.status_code], 0)
  | _ => ([pyDumps result.jsonBody], 0)

/-! ## Well-formed paginated envelopes

To state the multi-page claims, a scripted page is packaged together with the
decomposition of its JSON envelope: the object's fields, its single data key
and the items under it, its meta dict and the page number recorded there. -/

/-- A page response together with the decomposition of its envelope. -/
structure PageData where
  resp : PyResponse
  fields : Dict
  key : String
  items : List JValue
  meta : Dict
  pageNum : Int

/-- The decomposition is accurate: the response parses to `fields`, whose
single non-`meta` key is `key` and holds the array `items`, and whose `meta`
entry yields the dict `meta`. -/
def PageOk (p : PageData) : Prop :=
  p.resp.jsonBody = .obj p.fields ∧
  topLevelKey p.fields = .ok p.key ∧
  dictGet p.fields p.key = some (.arr p.items) ∧
  metaDict p.fields = .ok p.meta

/-- A non-final page: `meta.next_page_url` is truthy (in particular a
non-empty string) and `meta.page` holds the integer `pageNum`. -/
def MidPage (p : PageData) : Prop :=
  PageOk p ∧
  pyTruthy ((dictGet p.meta "next_page_url").getD .null) = true ∧
  dictGet p.meta "page" = some (.num p.pageNum)

/-- A final page: `meta.next_page_url` is absent, null, empty or otherwise
falsy. -/
def LastPage (p : PageData) : Prop :=
  PageOk p ∧
  pyTruthy ((dictGet p.meta "next_page_url").getD .null) = false

/-- A well-formed pagination script: at least one page, every page but the
last is a `MidPage`, the last is a `LastPage`. -/
def Chain : List PageData → Prop
  | [] => False
  | [p] => LastPage p
  | p :: q :: rest => MidPage p ∧ Chain (q :: rest)

/-- The concatenation of all pages' items in fetch order. -/
def itemsConcat : List PageData → List JValue
  | [] => []
  | p :: rest => p.items ++ itemsConcat rest

/-- The parameter dicts the loop sends, page by page: the first request
carries the caller's dict `d` unchanged, and each later request carries the
previous dict with `page` overwritten by the previous page's `pageNum + 1`. -/
def expectedParams (d : Dict) : List PageData → List Dict
  | [] => []
  | [_] => [d]
  | p :: q :: rest => d :: expectedParams (dictSet d "page" (.num (p.pageNum + 1))) (q :: rest)

/-- Placeholder response, only reached on the empty list. -/
def emptyResp : PyResponse :=
  { status_code := 0, headers := [], content := "", jsonBody := .null }

/-- The response of the last page of a script. -/
def lastRespD : List PageData → PyResponse
  | [] => emptyResp
  | [p] => p.resp
  | _ :: q :: rest => lastRespD (q :: rest)

/-! ## Concrete witness data -/

/-- First witness page: two items, a truthy `next_page_url`, `page = 1`. -/
def pageW1 : PageData where
  resp :=
    { status_code := 200
      headers := [("X-Trace", "1")]
      content := "page one body"
      jsonBody := .obj [("things", .arr [.num 1, .num 2]),
        ("meta", .obj [("page", .num 1), ("next_page_url", .str "/things?page=2")])] }
  fields := [("things", .arr [.num 1, .num 2]),
    ("meta", .obj [("page", .num 1), ("next_page_url", .str "/things?page=2")])]
  key := "things"
  items := [.num 1, .num 2]
  meta := [("page", .num 1), ("next_page_url", .str "/things?page=2")]
  pageNum := 1

/-- Second witness page: one item, no `next_page_url`. -/
def pageW2 : PageData where
  resp :=
    { status_code := 200
      headers := [("X-Trace", "2")]
      content := "page two body"
      jsonBody := .obj [("things", .arr [.num 3]),
        ("meta", .obj [("page", .num 2)])] }
  fields := [("things", .arr [.num 3]), ("meta", .obj [("page", .num 2)])]
  key := "things"
  items := [.num 3]
  meta := [("page", .num 2)]
  pageNum := 2

/-- A page whose JSON object holds nothing but `meta`: no data key at all. -/
def metaOnlyResp : PyResponse :=
  { status_code := 200
    headers := []
    content := "meta only"
    jsonBody := .obj [("meta", .obj [("page", .num 1)])] }

/-- A page whose meta has a truthy `next_page_url` but no `page` key. -/
def noPageKeyResp : PyResponse :=
  { status_code := 200
    headers := []
    content := "no page key"
    jsonBody := .obj [("things", .arr [.num 7]),
      ("meta", .obj [("next_page_url", .str "/things?page=2")])] }

end PyMDB

namespace PyMDB

/-! ## Basic lemmas about the embedded primitives -/

/-- `_request` never raises: whatever the response status, `raise_for_status`
can only produce an `HTTPError`, which the `except` clause catches, so the
raw response is always returned together with the printed log. -/
theorem pyRequest_eq_ok (resp : PyResponse) :
    pyRequest resp = .ok (resp, requestLog resp) := by
  unfold pyRequest requestLog raise_for_status
  by_cases hc : 400 ≤ resp.status_code ∧ resp.status_code < 600 <;> simp [hc]

/-- Looking up the written key after `{**d, k: v}` yields `v`. -/
theorem dictGet_dictSet_self (d : Dict) (k : String) (v : JValue) :
    dictGet (dictSet d k v) k = some v := by
  induction d with
  | nil => simp [dictSet, dictGet]
  | cons p rest ih =>
    obtain ⟨k', v'⟩ := p
    by_cases hp : k' = k
    · simp [dictSet, hp, dictGet]
    · simp [dictSet, hp, dictGet, ih]

/-- Looking up any other key after `{**d, k: v}` is unchanged. -/
theorem dictGet_dictSet_ne (d : Dict) (k : String) (v : JValue) (key : String)
    (hne : key ≠ k) :
    dictGet (dictSet d k v) key = dictGet d key := by
  induction d with
  | nil =>
    have hk : ¬ (k = key) := fun h => hne h.symm
    simp [dictSet, dictGet, hk]
  | cons p rest ih =>
    obtain ⟨k', v'⟩ := p
    by_cases hp : k' = k
    · have h1 : ¬ (k = key) := fun h => hne h.symm
      have h2 : ¬ (k' = key) := fun h => h1 (hp ▸ h)
      simp [dictSet, hp, dictGet, h1, h2]
    · by_cases hk : k' = key
      · simp [dictSet, hp, dictGet, hk, hne]
      · simp [dictSet, hp, dictGet, hk, ih]

/-! ## C4: non-mapping `params` is rejected before any request -/

/-- C4. For every `params` argument that is neither `None` nor a dict,
`paginate` raises `TypeError("params must be a dictionary")` at once: the
returned trace of network calls is empty and the heap is untouched. -/
theorem paginate_nondict_params (endpoint : String) (pages : List PyResponse)
    (h : Heap) (d : String) :
    paginate endpoint pages h (.other d) =
      (.error (.typeError "params must be a dictionary"), h, []) := rfl

/-! ## C5: HTTP failures do not raise in `_request` -/

/-- C5. A 4xx/5xx response makes `_request` print one line carrying the
status code (inside `httpErrorMessage`) and the response body, and the raw
failed response itself is still returned — no exception escapes. -/
theorem request_http_failure (resp : PyResponse)
    (h4 : 400 ≤ resp.status_code) (h6 : resp.status_code < 600) :
    pyRequest resp =
      .ok (resp,
        ["HTTP Error: " ++ httpErrorMessage resp.status_code ++ "\n" ++ resp.content]) := by
  unfold pyRequest raise_for_status
  rw [if_pos ⟨h4, h6⟩]

/-- A concrete 404 response used to witness the failure-path claims. -/
def resp404 : PyResponse :=
  { status_code := 404
    headers := [("Content-Type", "application/json")]
    content := "not found"
    jsonBody := .str "not found" }

/-- Witness for C5 at the concrete 404 response. -/
theorem request_http_failure_witness :
    400 ≤ resp404.status_code ∧ resp404.status_code < 600 ∧
      pyRequest resp404 =
        .ok (resp404,
          ["HTTP Error: " ++ httpErrorMessage resp404.status_code ++ "\n" ++ resp404.content]) :=
  ⟨by decide, by decide, request_http_failure resp404 (by decide) (by decide)⟩

/-! ## C6/C7: the environment-indirection resolver -/

/-- A scanning predicate holding everywhere leaves `takeWhile` the identity. -/
theorem takeWhile_all {p : Char → Bool} :
    ∀ (l : List Char), (∀ c ∈ l, p c = true) → l.takeWhile p = l
  | [], _ => rfl
  | c :: rest, h => by
    simp [List.takeWhile_cons, h c (by simp),
      takeWhile_all rest (fun c' hc' => h c' (by simp [hc']))]

/-- On `${NAME}` with no newline in `NAME`, the greedy capture is exactly
`NAME`. -/
theorem reGroupIndir_wrap (name : String) (hnl : '\n' ∉ name.data) :
    reGroupIndir ("$\x7b" ++ name ++ "\x7d") = some name := by
  have hdata : ("$\x7b" ++ name ++ "\x7d").data = '$' :: '\x7b' :: (name.data ++ ['\x7d']) := by
    simp [String.data_append]
  have htw : (name.data ++ ['\x7d']).takeWhile (fun ch => ch != '\n') =
      name.data ++ ['\x7d'] := by
    apply takeWhile_all
    intro c hc
    rcases List.mem_append.mp hc with hc | hc
    · simp only [bne_iff_ne, ne_eq]
      exact fun h => hnl (h ▸ hc)
    · simp only [List.mem_singleton] at hc
      subst hc
      rfl
  unfold reGroupIndir
  rw [hdata]
  simp [htw, List.dropWhile]

/-- C6 counterexample: on the value `"$\x7bA\nB\x7d"` — of the shape
`$\x7bNAME\x7d` with `NAME = "A\nB"`, and with `NAME` unset — resolution
does not return the original literal: the greedy `.*` cannot cross the
newline, `re.match` returns `None`, and `.group(1)` raises
`AttributeError`. -/
theorem load_from_env_newline_crashes :
    load_from_env (fun _ => none) (some "$\x7bA\nB\x7d") =
      .error (.attributeError "NoneType object has no attribute group") := rfl

/-- C6 (amended): for every value of the shape `$\x7bNAME\x7d` where `NAME`
holds no newline: when `NAME` is set in the environment, resolution returns
the environment's value; when it is unset, resolution returns the original
literal unchanged, marker included (`Option.getD` folds both cases into one
equation). A `NAME` containing a newline instead raises `AttributeError`. -/
theorem load_from_env_indirection (env : String → Option String) (name : String)
    (hnl : '\n' ∉ name.data) :
    load_from_env env (some ("$\x7b" ++ name ++ "\x7d")) =
      .ok (some ((env name).getD ("$\x7b" ++ name ++ "\x7d"))) := by
  have hdata : ("$\x7b" ++ name ++ "\x7d").data = '$' :: '\x7b' :: (name.data ++ ['\x7d']) := by
    simp [String.data_append]
  have hcons : '$' :: '\x7b' :: (name.data ++ ['\x7d']) =
      ('$' :: '\x7b' :: name.data) ++ ['\x7d'] := by simp
  have h1 : strTruthy ("$\x7b" ++ name ++ "\x7d") = true := by
    unfold strTruthy
    rw [hdata]
    rfl
  have h2 : startsWithIndir ("$\x7b" ++ name ++ "\x7d") = true := by
    unfold startsWithIndir
    rw [hdata]
    rfl
  have h3 : endsWithBrace ("$\x7b" ++ name ++ "\x7d") = true := by
    unfold endsWithBrace
    rw [hdata, hcons, List.getLast?_concat]
    rfl
  simp [load_from_env, h1, h2, h3, reGroupIndir_wrap name hnl]

/-- Witness for C6: `$\x7bHOME\x7d` under an environment that binds `HOME`
and under one that does not. -/
theorem load_from_env_indirection_witness :
    ('\n' ∉ "HOME".data) ∧
      load_from_env (fun n => if n = "HOME" then some "/root" else none)
        (some ("$\x7b" ++ "HOME" ++ "\x7d")) = .ok (some "/root") ∧
      load_from_env (fun _ => none) (some ("$\x7b" ++ "HOME" ++ "\x7d")) =
        .ok (some ("$\x7b" ++ "HOME" ++ "\x7d")) :=
  ⟨by decide,
    by rw [load_from_env_indirection _ "HOME" (by decide)]; rfl,
    by rw [load_from_env_indirection _ "HOME" (by decide)]; rfl⟩

/-- C7. Every non-empty value that does not match the indirection pattern
(start with `${` and end with `}`) resolves to itself, whatever the
environment: resolution restricted to literals is the identity. -/
theorem load_from_env_literal (env : String → Option String) (v : String)
    (hne : v ≠ "") (hpat : (startsWithIndir v && endsWithBrace v) = false) :
    load_from_env env (some v) = .ok (some v) := by
  have hd : v.data ≠ [] := fun h => hne (String.ext h)
  have ht : strTruthy v = true := by
    unfold strTruthy
    cases hdd : v.data with
    | nil => exact absurd hdd hd
    | cons a l => rfl
  simp [load_from_env, ht, hpat]

/-- Witness for C7 at the concrete literal `"hello"`. -/
theorem load_from_env_literal_witness :
    "hello" ≠ "" ∧ (startsWithIndir "hello" && endsWithBrace "hello") = false ∧
      load_from_env (fun _ => some "ignored") (some "hello") = .ok (some "hello") :=
  ⟨by decide, by decide, load_from_env_literal _ "hello" (by decide) (by decide)⟩

/-! ## C8: the CLI failure path prints but exits 0 -/

/-- C8 (evaluation at the failing input). On an HTTP 404 result, `main`
prints the human-readable error line carrying the error detail and the
numeric status code, but the process exit status is 0, not non-zero: `main`
only prints on this path and falls off the end. -/
theorem main_http_failure_exit_zero :
    mainOutcome resp404 =
      (["Error: " ++ httpErrorMessage 404 ++ ", Status Code: " ++ toString (404 : Nat)], 0) := rfl

end PyMDB

namespace PyMDB

/-! ## The pagination loop on a well-formed script -/

/-- On a well-formed envelope the per-page step extends the accumulator with
exactly that page's items and returns its meta dict. -/
theorem pageStep_ok (acc : List JValue) (fields : Dict) (key : String)
    (items : List JValue) (m : Dict)
    (htk : topLevelKey fields = .ok key)
    (hdv : dictGet fields key = some (.arr items))
    (hmd : metaDict fields = .ok m) :
    pageStep acc (.obj fields) = .ok (acc ++ items, m) := by
  simp [pageStep, htk, hdv, hmd, pyExtend]

theorem heapGet_append_self (h : Heap) (d : Dict) : heapGet (h ++ [d]) h.length = d := by
  simp [heapGet, List.getD]

/-- Running the loop over a chained script succeeds: it returns the last
page's response verbatim with the concatenated items, and issues one `GET`
per page whose parameters follow `expectedParams` of the dict currently
referenced by `r`. -/
theorem paginateLoop_chain (endpoint : String) :
    ∀ (ps : List PageData), Chain ps →
    ∀ (h : Heap) (r : Nat) (acc : List JValue),
      ∃ h2, paginateLoop endpoint h r acc (ps.map PageData.resp) =
        (.ok (lastRespD ps, acc ++ itemsConcat ps), h2,
          (expectedParams (heapGet h r) ps).map (fun d => ⟨"GET", endpoint, d⟩)) := by
  intro ps
  induction ps with
  | nil => intro hc; exact absurd hc (by simp [Chain])
  | cons p rest ih =>
    cases rest with
    | nil =>
      intro hc h r acc
      obtain ⟨⟨hjb, htk, hdv, hmd⟩, hnpu⟩ := hc
      refine ⟨h, ?_⟩
      simp [paginateLoop, pyRequest_eq_ok, hjb,
        pageStep_ok acc p.fields p.key p.items p.meta htk hdv hmd, hnpu,
        lastRespD, itemsConcat, expectedParams]
    | cons q rest' =>
      intro hc h r acc
      obtain ⟨⟨⟨hjb, htk, hdv, hmd⟩, hnpu, hpg⟩, hchain⟩ := hc
      obtain ⟨h2, hrec⟩ :=
        ih hchain (h ++ [dictSet (heapGet h r) "page" (.num (p.pageNum + 1))])
          h.length (acc ++ p.items)
      refine ⟨h2, ?_⟩
      rw [heapGet_append_self] at hrec
      rw [List.map_cons]
      generalize htail : List.map PageData.resp (q :: rest') = tail at hrec
      simp only [paginateLoop]
      simp [pyRequest_eq_ok, hjb,
        pageStep_ok acc p.fields p.key p.items p.meta htk hdv hmd, hnpu, hpg, pyAddOne,
        hrec, lastRespD, itemsConcat, expectedParams, List.append_assoc]

end PyMDB

namespace PyMDB

theorem expectedParams_length :
    ∀ (ps : List PageData) (d : Dict), (expectedParams d ps).length = ps.length
  | [], _ => rfl
  | [_], _ => rfl
  | p :: q :: rest, d => by
    simp only [expectedParams, List.length_cons]
    rw [expectedParams_length (q :: rest)]
    rfl

theorem expectedParams_head :
    ∀ (ps : List PageData) (d : Dict), ps ≠ [] → (expectedParams d ps).get? 0 = some d
  | [], _, hne => absurd rfl hne
  | [_], _, _ => rfl
  | _ :: _ :: _, _, _ => rfl

theorem expectedParams_adjacent :
    ∀ (ps : List PageData) (d : Dict) (k : Nat) (pk : PageData),
      ps.get? k = some pk → k + 1 < ps.length →
      ∃ dk, (expectedParams d ps).get? k = some dk ∧
        (expectedParams d ps).get? (k + 1) =
          some (dictSet dk "page" (.num (pk.pageNum + 1)))
  | [], _, k, pk => by intro hget _; simp at hget
  | [p], d, k, pk => by
    intro _ hlt
    simp only [List.length_cons, List.length_nil] at hlt
    omega
  | p :: q :: rest, d, 0, pk => by
    intro hget _
    simp only [List.get?] at hget
    obtain rfl : p = pk := by injection hget
    refine ⟨d, rfl, ?_⟩
    show (expectedParams d (p :: q :: rest)).get? 1 = _
    simp only [expectedParams, List.get?]
    exact expectedParams_head (q :: rest) _ (by simp)
  | p :: q :: rest, d, (k + 1), pk => by
    intro hget hlt
    simp only [List.get?] at hget
    have hlt' : k + 1 < (q :: rest).length := by
      simp only [List.length_cons] at hlt ⊢
      omega
    simpa [expectedParams, List.get?] using
      expectedParams_adjacent (q :: rest) (dictSet d "page" (.num (p.pageNum + 1))) k pk
        hget hlt'

/-- C1. Over a chained script of `N` pages (every page but the last carrying
a truthy `next_page_url` and an integer `meta.page`), `paginate` succeeds:
the synthetic body is the JSON-serialized concatenation of all pages' items
in fetch order; exactly `N` requests are issued, all `GET` on the endpoint;
the first request carries the caller's params dict unchanged; and every
request after the first carries `page` equal to the previously fetched
page's `meta.page + 1` while every other entry is carried unchanged. -/
theorem paginate_multi_page (endpoint : String) (ps : List PageData) (d0 : Dict)
    (hc : Chain ps) :
    ∃ h2 synth,
      paginate endpoint (ps.map PageData.resp) [d0] (.ref 0) =
        (.ok synth, h2, (expectedParams d0 ps).map (fun d => ⟨"GET", endpoint, d⟩)) ∧
      synth.content = pyDumps (.arr (itemsConcat ps)) ∧
      (expectedParams d0 ps).length = ps.length ∧
      (expectedParams d0 ps).get? 0 = some d0 ∧
      (∀ k pk, ps.get? k = some pk → k + 1 < ps.length →
        ∃ dk dk1, (expectedParams d0 ps).get? k = some dk ∧
          (expectedParams d0 ps).get? (k + 1) = some dk1 ∧
          dictGet dk1 "page" = some (.num (pk.pageNum + 1)) ∧
          ∀ key, key ≠ "page" → dictGet dk1 key = dictGet dk key) := by
  obtain ⟨h2, hloop⟩ := paginateLoop_chain endpoint ps hc [d0] 0 []
  have hd0 : heapGet [d0] 0 = d0 := rfl
  rw [hd0] at hloop
  refine ⟨h2, { lastRespD ps with content := pyDumps (.arr (itemsConcat ps)) }, ?_, rfl, ?_, ?_, ?_⟩
  · show finishLoop (paginateLoop endpoint [d0] 0 [] (ps.map PageData.resp)) = _
    rw [hloop]
    rfl
  · exact expectedParams_length ps d0
  · refine expectedParams_head ps d0 ?_
    intro hnil
    rw [hnil] at hc
    exact hc
  · intro k pk hget hlt
    obtain ⟨dk, hdk, hdk1⟩ := expectedParams_adjacent ps d0 k pk hget hlt
    exact ⟨dk, dictSet dk "page" (.num (pk.pageNum + 1)), hdk, hdk1,
      dictGet_dictSet_self dk "page" (.num (pk.pageNum + 1)),
      fun key hkey => dictGet_dictSet_ne dk "page" (.num (pk.pageNum + 1)) key hkey⟩

end PyMDB

namespace PyMDB

/-- The two-page witness script is a well-formed chain. -/
theorem chainW : Chain [pageW1, pageW2] :=
  ⟨⟨⟨rfl, rfl, rfl, rfl⟩, rfl, rfl⟩, ⟨rfl, rfl, rfl, rfl⟩, rfl⟩

/-- The caller's params dict used by the C1 witness, mirroring the spec's
example `params = \x7b"page": 1, "status": "open"\x7d`. -/
def d0W : Dict := [("page", .num 1), ("status", .str "open")]

/-- Witness for C1: the two-page script with `params = \x7bpage: 1,
status: "open"\x7d`. -/
theorem paginate_multi_page_witness :
    Chain [pageW1, pageW2] ∧
      (∃ h2 synth,
        paginate "things" ([pageW1, pageW2].map PageData.resp) [d0W] (.ref 0) =
          (.ok synth, h2,
            (expectedParams d0W [pageW1, pageW2]).map (fun d => ⟨"GET", "things", d⟩)) ∧
        synth.content = pyDumps (.arr (itemsConcat [pageW1, pageW2])) ∧
        (expectedParams d0W [pageW1, pageW2]).length = [pageW1, pageW2].length ∧
        (expectedParams d0W [pageW1, pageW2]).get? 0 = some d0W ∧
        (∀ k pk, [pageW1, pageW2].get? k = some pk → k + 1 < [pageW1, pageW2].length →
          ∃ dk dk1, (expectedParams d0W [pageW1, pageW2]).get? k = some dk ∧
            (expectedParams d0W [pageW1, pageW2]).get? (k + 1) = some dk1 ∧
            dictGet dk1 "page" = some (.num (pk.pageNum + 1)) ∧
            ∀ key, key ≠ "page" → dictGet dk1 key = dictGet dk key)) :=
  ⟨chainW, paginate_multi_page "things" [pageW1, pageW2] d0W chainW⟩

/-- C3. For every pagination run over a chained script, the synthetic
response's body is exactly the JSON serialization of the combined item
sequence as a plain array, while its status, headers and parsed-body oracle
are exactly those of the last page fetched, unchanged. -/
theorem paginate_synthetic_frame (endpoint : String) (ps : List PageData) (d0 : Dict)
    (hc : Chain ps) :
    ∃ h2 reqs,
      paginate endpoint (ps.map PageData.resp) [d0] (.ref 0) =
        (.ok { status_code := (lastRespD ps).status_code
               headers := (lastRespD ps).headers
               content := pyDumps (.arr (itemsConcat ps))
               jsonBody := (lastRespD ps).jsonBody }, h2, reqs) := by
  obtain ⟨h2, hloop⟩ := paginateLoop_chain endpoint ps hc [d0] 0 []
  refine ⟨h2, (expectedParams (heapGet [d0] 0) ps).map (fun d => ⟨"GET", endpoint, d⟩), ?_⟩
  show finishLoop (paginateLoop endpoint [d0] 0 [] (ps.map PageData.resp)) = _
  rw [hloop]
  rfl

/-- Witness for C3: the two-page script with empty params. -/
theorem paginate_synthetic_frame_witness :
    Chain [pageW1, pageW2] ∧
      (∃ h2 reqs,
        paginate "things" ([pageW1, pageW2].map PageData.resp) [[]] (.ref 0) =
          (.ok { status_code := (lastRespD [pageW1, pageW2]).status_code
                 headers := (lastRespD [pageW1, pageW2]).headers
                 content := pyDumps (.arr (itemsConcat [pageW1, pageW2]))
                 jsonBody := (lastRespD [pageW1, pageW2]).jsonBody }, h2, reqs)) :=
  ⟨chainW, paginate_synthetic_frame "things" [pageW1, pageW2] [] chainW⟩

/-! ## C9: the caller's dict is never mutated -/

theorem finishLoop_heap (t : (Except PyError (PyResponse × List JValue)) × Heap × List Request) :
    (finishLoop t).2.1 = t.2.1 := by
  obtain ⟨res, h, reqs⟩ := t
  cases res with
  | error e => rfl
  | ok pr =>
    obtain ⟨resp, acc⟩ := pr
    rfl

/-- The loop only allocates: the heap after a run is the heap before,
extended with the freshly allocated dicts. -/
theorem paginateLoop_heap_extends (endpoint : String) :
    ∀ (pages : List PyResponse) (h : Heap) (r : Nat) (acc : List JValue),
      ∃ ext, (paginateLoop endpoint h r acc pages).2.1 = h ++ ext := by
  intro pages
  induction pages with
  | nil => intro h r acc; exact ⟨[], by simp [paginateLoop]⟩
  | cons page rest ih =>
    intro h r acc
    rcases hps : pageStep acc page.jsonBody with e | ⟨acc', m⟩
    · exact ⟨[], by simp [paginateLoop, pyRequest_eq_ok, hps]⟩
    · by_cases hnpu : pyTruthy ((dictGet m "next_page_url").getD .null) = true
      · rcases hpg : dictGet m "page" with _ | pv
        · exact ⟨[], by simp [paginateLoop, pyRequest_eq_ok, hps, hnpu, hpg]⟩
        · rcases hadd : pyAddOne pv with e | n
          · exact ⟨[], by simp [paginateLoop, pyRequest_eq_ok, hps, hnpu, hpg, hadd]⟩
          · obtain ⟨ext', hext⟩ :=
              ih (h ++ [dictSet (heapGet h r) "page" (.num n)]) h.length acc'
            refine ⟨[dictSet (heapGet h r) "page" (.num n)] ++ ext', ?_⟩
            rcases hrun : paginateLoop endpoint
                (h ++ [dictSet (heapGet h r) "page" (.num n)]) h.length acc' rest with
              ⟨res, h2, reqs⟩
            rw [hrun] at hext
            simp only [] at hext
            simp [paginateLoop, pyRequest_eq_ok, hps, hnpu, hpg, hadd, hrun, hext,
              List.append_assoc]
      · exact ⟨[], by simp [paginateLoop, pyRequest_eq_ok, hps, hnpu]⟩

/-- C9. Whatever `paginate` does — succeed, or raise at any point — the
caller's params dict (heap cell 0) holds exactly the same entries afterwards
as before the call: the loop's `page` overwrite goes into a fresh dict. -/
theorem paginate_no_caller_mutation (endpoint : String) (pages : List PyResponse)
    (d0 : Dict) (p : PyParams) :
    heapGet (paginate endpoint pages [d0] p).2.1 0 = d0 := by
  cases p with
  | other descr => rfl
  | pynone =>
    show heapGet (finishLoop (paginateLoop endpoint ([d0] ++ [[]])
      (List.length [d0]) [] pages)).2.1 0 = d0
    rw [finishLoop_heap]
    obtain ⟨ext, hext⟩ :=
      paginateLoop_heap_extends endpoint pages ([d0] ++ [[]]) (List.length [d0]) []
    rw [hext]
    rfl
  | ref r =>
    show heapGet (finishLoop (paginateLoop endpoint [d0] r [] pages)).2.1 0 = d0
    rw [finishLoop_heap]
    obtain ⟨ext, hext⟩ := paginateLoop_heap_extends endpoint pages [d0] r []
    rw [hext]
    rfl

/-! ## C2: a page with no data key -/

/-- C2 counterexample: a page whose JSON object holds nothing but `meta`
does not contribute zero items and proceed — `paginate` raises
`StopIteration` at the data-key discovery after its single request. -/
theorem paginate_meta_only_crashes :
    paginate "things" [metaOnlyResp] [[]] (.ref 0) =
      (.error .stopIteration, [[]], [⟨"GET", "things", []⟩]) := rfl

/-- C2 amended. For every page response that is a JSON object with no key
other than `meta`, `paginate` raises `StopIteration` at the data-key
discovery for that page (the documented empty-sequence default is
unreachable, since the data key is always drawn from the object's own key
set); the run stops there with that page's request as its last. -/
theorem paginate_missing_data_key (endpoint : String) (resp : PyResponse)
    (fields : Dict) (rest : List PyResponse) (h : Heap) (r : Nat)
    (hjb : resp.jsonBody = .obj fields)
    (hkeys : (fields.map Prod.fst).filter (fun k => k != "meta") = []) :
    paginate endpoint (resp :: rest) h (.ref r) =
      (.error .stopIteration, h, [⟨"GET", endpoint, heapGet h r⟩]) := by
  have htk : topLevelKey fields = .error .stopIteration := by
    simp [topLevelKey, hkeys]
  show finishLoop (paginateLoop endpoint h r [] (resp :: rest)) = _
  simp [paginateLoop, pyRequest_eq_ok, hjb, pageStep, htk, finishLoop]

/-- Witness for the amended C2 at the concrete meta-only page. -/
theorem paginate_missing_data_key_witness :
    metaOnlyResp.jsonBody = .obj [("meta", .obj [("page", .num 1)])] ∧
    (([("meta", .obj [("page", .num 1)])] : Dict).map Prod.fst).filter
      (fun k => k != "meta") = [] ∧
    paginate "things" [metaOnlyResp] [[("status", .str "open")]] (.ref 0) =
      (.error .stopIteration, [[("status", .str "open")]],
        [⟨"GET", "things", [("status", .str "open")]⟩]) :=
  ⟨rfl, rfl,
    paginate_missing_data_key "things" metaOnlyResp
      [("meta", .obj [("page", .num 1)])] [] [[("status", .str "open")]] 0 rfl rfl⟩

/-! ## C10: truthy `next_page_url` with no `page` key -/

/-- C10. A page whose meta carries a truthy `next_page_url` but no `page`
key makes the loop raise `KeyError('page')` at the end of that iteration,
right after that page's items were consumed: the continuation step requires
`meta` to hold a `page` entry whenever `next_page_url` is non-empty. -/
theorem paginate_missing_page_key (endpoint : String) (resp : PyResponse)
    (fields : Dict) (key : String) (items : List JValue) (m : Dict)
    (rest : List PyResponse) (h : Heap) (r : Nat)
    (hjb : resp.jsonBody = .obj fields)
    (htk : topLevelKey fields = .ok key)
    (hdv : dictGet fields key = some (.arr items))
    (hmd : metaDict fields = .ok m)
    (hnpu : pyTruthy ((dictGet m "next_page_url").getD .null) = true)
    (hpg : dictGet m "page" = none) :
    paginate endpoint (resp :: rest) h (.ref r) =
      (.error (.keyError "page"), h, [⟨"GET", endpoint, heapGet h r⟩]) := by
  show finishLoop (paginateLoop endpoint h r [] (resp :: rest)) = _
  simp [paginateLoop, pyRequest_eq_ok, hjb,
    pageStep_ok [] fields key items m htk hdv hmd, hnpu, hpg, finishLoop]

/-- Witness for C10 at the concrete page lacking `meta.page`. -/
theorem paginate_missing_page_key_witness :
    noPageKeyResp.jsonBody = .obj [("things", .arr [.num 7]),
      ("meta", .obj [("next_page_url", .str "/things?page=2")])] ∧
    topLevelKey [("things", .arr [.num 7]),
      ("meta", .obj [("next_page_url", .str "/things?page=2")])] = .ok "things" ∧
    dictGet [("next_page_url", .str "/things?page=2")] "page" = none ∧
    paginate "things" [noPageKeyResp] [[]] (.ref 0) =
      (.error (.keyError "page"), [[]], [⟨"GET", "things", []⟩]) :=
  ⟨rfl, rfl, rfl,
    paginate_missing_page_key "things" noPageKeyResp
      [("things", .arr [.num 7]), ("meta", .obj [("next_page_url", .str "/things?page=2")])]
      "things" [.num 7] [("next_page_url", .str "/things?page=2")] [] [[]] 0
      rfl rfl rfl rfl rfl rfl⟩

end PyMDB
